import Mathlib

/-!
Verification development for the TMIP-EMAT VisionEval RSPM adapter
(`emat_verspm.py`).  The Python source is shallowly embedded: text is
`List Char`, pandas data frames are lists of typed columns over `ℚ`/`ℤ`,
the regex-based substitution engines are modelled as explicit scanners
over character lists, and fallible operations return `Except`/`Option`
values paired with the list of performed side effects (files written or
copied), so that "error raised before any output" is a statement about
the returned effect list.
-/

/-! ## Character classes used by the regular expressions

Python `\s` (for ASCII text, as used by the configuration files here)
is the set space, tab, newline, carriage return, vertical tab, form feed.
-/

def isPyWs (c : Char) : Bool :=
  c = ' ' || c = '\t' || c = '\n' || c = '\r' || c = '\x0b' || c = '\x0c'

/-- Length of the longest prefix of `s` whose characters all satisfy `p`
(the text matched by a greedy `p*`). -/
def starLen (p : Char → Bool) (s : List Char) : Nat :=
  (s.takeWhile p).length

/-- Length (0 or 1) matched by a greedy `p?` at the head of `s`. -/
def optLen (p : Char → Bool) (s : List Char) : Nat :=
  match s with
  | [] => 0
  | c :: _ => if p c then 1 else 0

/-- True when `s` is empty or its head fails `p`; this is the condition
under which a greedy `p*` stops exactly at the start of `s`. -/
def headFails (p : Char → Bool) (s : List Char) : Bool :=
  match s with
  | [] => true
  | c :: _ => !p c

/-! ## `ReplacementOfNumber`

Source: `emat_verspm.py`, class `ReplacementOfNumber`.  The compiled
pattern is `({varname}\s*{assign_operator}\s*)({numbr})` with
`numbr = ([-+]?\d*\.?\d*[eE]?[-+]?\d*|\d+\/\d+)`, and `sub` performs
`regex.subn(f"\g<1>{value}", s)`.

The first alternative of `numbr` is a sequence of optional pieces, so it
matches (possibly the empty string) at every position; Python's `re`
tries alternatives left to right and nothing follows `numbr` in the
pattern, so the `\d+/\d+` alternative is never reached and the matched
number is the greedy match of `[-+]?\d*\.?\d*[eE]?[-+]?\d*`.  Each piece
of that sequence is an optional/starred single character class followed
only by further optional pieces, so the backtracking engine's result is
the plain left-to-right greedy one computed here.
-/

def numbrLen (s : List Char) : Nat :=
  let a := optLen (fun c => c = '-' || c = '+') s
  let s1 := s.drop a
  let b := starLen Char.isDigit s1
  let s2 := s1.drop b
  let c := optLen (fun ch => ch = '.') s2
  let s3 := s2.drop c
  let d := starLen Char.isDigit s3
  let s4 := s3.drop d
  let e := optLen (fun ch => ch = 'e' || ch = 'E') s4
  let s5 := s4.drop e
  let f := optLen (fun ch => ch = '-' || ch = '+') s5
  let s6 := s5.drop f
  let g := starLen Char.isDigit s6
  a + b + c + d + e + f + g

/-- Match of the number-assignment pattern at the head of `s` for the
given variable name and assignment operator (both taken as literal
text, as they are interpolated literally into the pattern).  Returns
`some (g1, g2)` with the lengths of group 1 (`varname\s*op\s*`) and
group 2 (the number), or `none` when the pattern does not match here.
The greedy `\s*` runs are exact because the operator used by the source
(`:`) does not start with whitespace and the number alternative matches
the empty string. -/
def matchNum (var op : List Char) (s : List Char) : Option (Nat × Nat) :=
  if var.isPrefixOf s then
    let s1 := s.drop var.length
    let w1 := starLen isPyWs s1
    let s2 := s1.drop w1
    if op.isPrefixOf s2 then
      let s3 := s2.drop op.length
      let w2 := starLen isPyWs s3
      let s4 := s3.drop w2
      some (var.length + w1 + op.length + w2, numbrLen s4)
    else none
  else none

/-- The scan of `re.subn`: left to right, non-overlapping; at a match
the replacement template `\g<1>{value}` emits group 1 followed by the
new value and scanning resumes after the match; a zero-width match is
replaced and scanning advances one character, as in Python.  `fuel` is
an upper bound on the number of scan steps; every step consumes at
least one character, so `s.length` fuel always suffices. -/
def subNumFuel (var op val : List Char) : Nat → List Char → List Char × Nat
  | 0, s => (s, 0)
  | _ + 1, [] => ([], 0)
  | fuel + 1, c :: rest =>
    match matchNum var op (c :: rest) with
    | none =>
      let r := subNumFuel var op val fuel rest
      (c :: r.1, r.2)
    | some (g1, g2) =>
      if g1 + g2 = 0 then
        let r := subNumFuel var op val fuel rest
        (val ++ c :: r.1, r.2 + 1)
      else
        let r := subNumFuel var op val fuel ((c :: rest).drop (g1 + g2))
        ((c :: rest).take g1 ++ val ++ r.1, r.2 + 1)

/-- Whether the number-assignment pattern matches at any position of `s`. -/
def hasNumMatch (var op : List Char) : List Char → Bool
  | [] => false
  | c :: rest => (matchNum var op (c :: rest)).isSome || hasNumMatch var op rest

structure ReplacementOfNumber where
  varname : List Char
  assign_operator : List Char

/-- Embedding of `ReplacementOfNumber.sub`: returns the edited text and
the substitution count reported by `re.subn`. -/
def ReplacementOfNumber.sub (r : ReplacementOfNumber) (value s : List Char) :
    List Char × Nat :=
  subNumFuel r.varname r.assign_operator value s.length s

/-! ## `ReplacementOfString`

Source: `emat_verspm.py`, class `ReplacementOfString`.  The compiled
pattern is `({varname}\s*{assign_operator}\s*)([^#\n]*)(#.*)?` with
`re.MULTILINE` (which only affects `^`/`$`, absent here), and `sub`
performs `regex.subn(f"\g<1>{value}  \g<3>", s)` — note the two literal
spaces between the new value and group 3.  Since Python 3.5 an unset
group referenced by a replacement template is substituted as the empty
string, which is how a line without a trailing comment is handled.
-/

/-- Length matched by the optional trailing-comment group `(#.*)?` at
the head of `s`: a `#` followed by the greedy run of non-newline
characters, or 0 when the group does not participate. -/
def commentLen (s : List Char) : Nat :=
  match s with
  | '#' :: t => 1 + starLen (fun c => !(c = '\n')) t
  | _ => 0

/-- Match of the string-assignment pattern at the head of `s`: returns
`some (g1, g2, g3)` with the lengths of group 1 (`varname\s*op\s*`),
group 2 (`[^#\n]*`, the value portion) and group 3 (`(#.*)?`, the
trailing comment, 0 when the group is unset). -/
def matchStr (var op : List Char) (s : List Char) : Option (Nat × Nat × Nat) :=
  if var.isPrefixOf s then
    let s1 := s.drop var.length
    let w1 := starLen isPyWs s1
    let s2 := s1.drop w1
    if op.isPrefixOf s2 then
      let s3 := s2.drop op.length
      let w2 := starLen isPyWs s3
      let s4 := s3.drop w2
      let g2 := starLen (fun c => !(c = '#' || c = '\n')) s4
      let s5 := s4.drop g2
      some (var.length + w1 + op.length + w2, g2, commentLen s5)
    else none
  else none

/-- The `re.subn` scan for the string pattern; the replacement template
emits group 1, the new value, two spaces, then group 3. -/
def subStrFuel (var op val : List Char) : Nat → List Char → List Char × Nat
  | 0, s => (s, 0)
  | _ + 1, [] => ([], 0)
  | fuel + 1, c :: rest =>
    match matchStr var op (c :: rest) with
    | none =>
      let r := subStrFuel var op val fuel rest
      (c :: r.1, r.2)
    | some (g1, g2, g3) =>
      if g1 + g2 + g3 = 0 then
        let r := subStrFuel var op val fuel rest
        (val ++ [' ', ' '] ++ c :: r.1, r.2 + 1)
      else
        let s := c :: rest
        let r := subStrFuel var op val fuel (s.drop (g1 + g2 + g3))
        (s.take g1 ++ val ++ [' ', ' '] ++ (s.drop (g1 + g2)).take g3 ++ r.1, r.2 + 1)

structure ReplacementOfString where
  varname : List Char
  assign_operator : List Char

/-- Embedding of `ReplacementOfString.sub`. -/
def ReplacementOfString.sub (r : ReplacementOfString) (value s : List Char) :
    List Char × Nat :=
  subStrFuel r.varname r.assign_operator value s.length s

/-- Shape of a trailing-comment region: empty, or a `#` comment with no
newline inside. -/
def isCommentShape : List Char → Bool
  | [] => true
  | c :: t => c = '#' && t.all (fun x => !(x = '\n'))

/-- Shape of the text following a matched line: empty or starting with a
newline. -/
def isLineEnd : List Char → Bool
  | [] => true
  | c :: _ => c = '\n'

/-! ## `_manipulate_by_mixture`: the continuous blending engine

Source: `emat_verspm.py`, `VERSPModel._manipulate_by_mixture`.  A CSV
table is a list of named columns; a column holds float data (modelled
exactly over `ℚ`), integer data, or other (text) data — the dtype that
`pandas.read_csv` inferred for it.  The Python code computes
`weight_1 = 1.0 - weight_2`, blends the float columns as
`df1_float * weight_1 + df2_float * weight_2`, blends the integer
columns the same way and then applies `np.round` (round half to even)
followed by `astype(int)`, and leaves every other column — including
the `no_mix_cols` exclusions `Year`, `Geo` — untouched from `df1`.
Column alignment between the two frames is by column name, as with
pandas `df2[cols]` selection.
-/

inductive ColData where
  | floatData (vals : List ℚ)
  | intData (vals : List ℤ)
  | textData (vals : List String)
deriving DecidableEq

structure Column where
  name : String
  data : ColData
deriving DecidableEq

abbrev DataFrame := List Column

def lookupColumn (df : DataFrame) (nm : String) : Option ColData :=
  match df with
  | [] => none
  | c :: rest => if c.name = nm then some c.data else lookupColumn rest nm

/-- Round half to even, the rounding rule of `np.round`. -/
def roundHalfEven (q : ℚ) : ℤ :=
  let n := ⌊q⌋
  let r := q - n
  if r < 1 / 2 then n
  else if 1 / 2 < r then n + 1
  else if Even n then n else n + 1

/-- Blending of one column of `df1` against the column of the same name
in `df2`, as `_manipulate_by_mixture` does per file: excluded columns
and non-numeric columns pass through; float columns are combined
elementwise; integer columns are combined elementwise, rounded half to
even and cast back to integers.  The endpoint directories are assumed
schema-identical (spec, data model); on a name or dtype mismatch in
`df2` — outside every claim's scope — the column passes through. -/
def mixColumn (noMix : List String) (w2 : ℚ) (df2 : DataFrame) (c : Column) : Column :=
  let w1 := 1 - w2
  if c.name ∈ noMix then c
  else
    match c.data with
    | ColData.floatData v1 =>
      match lookupColumn df2 c.name with
      | some (ColData.floatData v2) =>
        ⟨c.name, ColData.floatData (List.zipWith (fun a b => a * w1 + b * w2) v1 v2)⟩
      | _ => c
    | ColData.intData v1 =>
      match lookupColumn df2 c.name with
      | some (ColData.intData v2) =>
        ⟨c.name, ColData.intData
          (List.zipWith (fun (a b : ℤ) => roundHalfEven ((a : ℚ) * w1 + (b : ℚ) * w2)) v1 v2)⟩
      | _ => c
    | ColData.textData _ => c

/-- Per-file blending of two endpoint tables. -/
def mixFrames (noMix : List String) (w2 : ℚ) (df1 df2 : DataFrame) : DataFrame :=
  df1.map (mixColumn noMix w2 df2)

/-- An endpoint scenario directory: files by name. -/
structure ScenarioDir where
  files : List (String × DataFrame)

def fileNames (d : ScenarioDir) : List String := d.files.map Prod.fst

def lookupFrame (files : List (String × DataFrame)) (nm : String) : DataFrame :=
  match files with
  | [] => []
  | (n, df) :: rest => if n = nm then df else lookupFrame rest nm

/-- The path `scenario_input(ve_scenario_dir, '2', name)` that the
`FileNotFoundError` is raised with. -/
def missingPath (base sdir nm : String) : String :=
  base ++ "/scenario_inputs/" ++ sdir ++ "/2/" ++ nm

/-- First loop of `_manipulate_by_mixture`: gather the file names of
directory "1" and confirm each is present in directory "2", raising
`FileNotFoundError` with the directory-"2" path of the first file that
is missing.  No output is produced during this loop. -/
def checkPairedFiles (base sdir : String) (names1 names2 : List String) :
    Except String (List String) :=
  match names1 with
  | [] => Except.ok []
  | n :: rest =>
    if n ∈ names2 then
      match checkPairedFiles base sdir rest names2 with
      | Except.ok ns => Except.ok (n :: ns)
      | Except.error e => Except.error e
    else Except.error (missingPath base sdir n)

/-- Embedding of `_manipulate_by_mixture`: the returned list is the
sequence of files written to the working input directory (the second
loop), and the `Option String` is the raised `FileNotFoundError` path,
if any.  The check loop runs to completion before the first write. -/
def manipulateByMixture (base sdir : String) (noMix : List String) (w : ℚ)
    (d1 d2 : ScenarioDir) : List (String × DataFrame) × Option String :=
  match checkPairedFiles base sdir (fileNames d1) (fileNames d2) with
  | Except.error e => ([], some e)
  | Except.ok names =>
    (names.map (fun nm => (nm, mixFrames noMix w (lookupFrame d1.files nm) (lookupFrame d2.files nm))),
     none)

/-! ## `_manipulate_by_categorical_drop_in`

Source: `emat_verspm.py`, `VERSPModel._manipulate_by_categorical_drop_in`.
The scenario directory is obtained with `cat_mapping.get(params[cat_param])`,
which returns `None` — not a `KeyError` — when the categorical value is
not a key.  The `None` then flows into
`scenario_input(ve_scenario_dir, None)`, and `os.path.join` raises
`TypeError` ("join() argument must be str ... not NoneType") before
`os.scandir` runs and before any file is copied.
-/

inductive PyExc where
  | typeError (msg : String)
  | keyError (msg : String)
  | fileNotFound (path : String)
deriving DecidableEq

/-- `dict.get`: `none` on a missing key. -/
def dictGet (m : List (String × String)) (k : String) : Option String :=
  match m with
  | [] => none
  | (k2, v) :: rest => if k2 = k then some v else dictGet rest k

/-- Embedding of `_manipulate_by_categorical_drop_in`: returns the list
of files copied into the working input directory and the raised
exception, if any.  `dirFiles` gives the contents of each scenario
subdirectory. -/
def manipulateByCategoricalDropIn (mapping : List (String × String))
    (catValue : String) (dirFiles : String → List String) :
    List String × Option PyExc :=
  match dictGet mapping catValue with
  | none => ([], some (PyExc.typeError "join() argument must be str, bytes, or os.PathLike object, not NoneType"))
  | some d => (dirFiles d, none)

/-- Whether an optional exception is a lookup-miss (`KeyError`). -/
def isKeyErrorExc : Option PyExc → Bool
  | some (PyExc.keyError _) => true
  | _ => false

/-! ## `VERSPModel.run`: subprocess failure and output renaming

Source: `emat_verspm.py`, `VERSPModel.run`.  The subprocess result is
captured with `capture_output=True`; a truthy (non-zero) `returncode`
raises `subprocess.CalledProcessError(returncode, args, stdout, stderr)`.
On success the outputs are renamed by the compiled pattern
`(.*)_202[0-9]-[0-9]+-[0-9]+_[0-9]+(\.csv)` with replacement `\1\2`
(note the hard-coded `202[0-9]` year digits).
-/

structure CompletedProcess where
  returncode : Int
  args : List String
  stdout : List Char
  stderr : List Char
deriving DecidableEq

structure CalledProcessError where
  returncode : Int
  cmd : List String
  stdout : List Char
  stderr : List Char
deriving DecidableEq

/-- The error-check step of `run()` around `subprocess.run`. -/
def runCheck (res : CompletedProcess) : Except CalledProcessError CompletedProcess :=
  if res.returncode ≠ 0 then
    Except.error ⟨res.returncode, res.args, res.stdout, res.stderr⟩
  else Except.ok res

/-- Match of `_202[0-9]-[0-9]+-[0-9]+_[0-9]+\.csv` at the head of `s`
(the fixed tail of the renamer pattern); returns the consumed length.
Each greedy `[0-9]+` is followed by a non-digit literal, so plain
greedy digit runs are exact. -/
def tsTailLen (s : List Char) : Option Nat :=
  match s with
  | '_' :: '2' :: '0' :: '2' :: y :: s1 =>
    if y.isDigit then
      match s1 with
      | '-' :: s2 =>
        let m := s2.takeWhile Char.isDigit
        if m.isEmpty then none else
        match s2.drop m.length with
        | '-' :: s3 =>
          let d := s3.takeWhile Char.isDigit
          if d.isEmpty then none else
          match s3.drop d.length with
          | '_' :: s4 =>
            let n := s4.takeWhile Char.isDigit
            if n.isEmpty then none else
            match s4.drop n.length with
            | '.' :: 'c' :: 's' :: 'v' :: _ =>
              some (6 + m.length + 1 + d.length + 1 + n.length + 4)
            | _ => none
          | _ => none
        | _ => none
      | _ => none
    else none
  | _ => none

/-- Tail matcher for the pattern of the specification's words:
`<name>_<YYYY>-<M>-<D>_<N>.csv` with ANY four-digit year.  Modelled
from the spec, for comparison with the source's `202[0-9]` pattern. -/
def specTsTailLen (s : List Char) : Option Nat :=
  match s with
  | '_' :: y1 :: y2 :: y3 :: y4 :: s1 =>
    if y1.isDigit && y2.isDigit && y3.isDigit && y4.isDigit then
      match s1 with
      | '-' :: s2 =>
        let m := s2.takeWhile Char.isDigit
        if m.isEmpty then none else
        match s2.drop m.length with
        | '-' :: s3 =>
          let d := s3.takeWhile Char.isDigit
          if d.isEmpty then none else
          match s3.drop d.length with
          | '_' :: s4 =>
            let n := s4.takeWhile Char.isDigit
            if n.isEmpty then none else
            match s4.drop n.length with
            | '.' :: 'c' :: 's' :: 'v' :: _ =>
              some (6 + m.length + 1 + d.length + 1 + n.length + 4)
            | _ => none
          | _ => none
        | _ => none
      | _ => none
    else none
  | _ => none

/-- Greedy split for a pattern `(.*)tail...`: the largest position `k`
at which the tail matches (`.*` is greedy, so the regex engine prefers
the largest `k`), together with the tail's consumed length.  `from` is
counted down from `s.length`. -/
def findSplitWith (tail : List Char → Option Nat) (s : List Char) :
    Nat → Option (Nat × Nat)
  | 0 =>
    match tail s with
    | some m => some (0, m)
    | none => none
  | k + 1 =>
    match tail (s.drop (k + 1)) with
    | some m => some (k + 1, m)
    | none => findSplitWith tail s k

/-- Whether `renamer.match(s)` succeeds: the pattern starts with `.*`,
so a match anchored at position 0 exists exactly when the tail matches
at some split position (file names contain no newline). -/
def renamerMatches (s : List Char) : Bool :=
  (findSplitWith tsTailLen s s.length).isSome

/-- Whether `s` matches the pattern as worded in the specification
(any four-digit year). -/
def specPatternMatches (s : List Char) : Bool :=
  (findSplitWith specTsTailLen s s.length).isSome

/-- `renamer.sub(r"\1\2", s)`: replace every non-overlapping match by
group 1 followed by `.csv`.  Every match consumes at least one
character, so `s.length` fuel suffices. -/
def renamerSubFuel : Nat → List Char → List Char
  | 0, s => s
  | fuel + 1, s =>
    match findSplitWith tsTailLen s s.length with
    | none => s
    | some (k, m) =>
      s.take k ++ ('.' :: 'c' :: 's' :: 'v' :: []) ++ renamerSubFuel fuel (s.drop (k + m))

/-- The per-file renaming step of `run()`: a file whose name matches the
renamer pattern is renamed to `renamer.sub(r"\1\2", name)`; other files
keep their name. -/
def renameStep (s : List Char) : List Char :=
  if renamerMatches s then renamerSubFuel s.length s else s

/-! ## `VERSPModel.post_process`

Source: `emat_verspm.py`, `VERSPModel.post_process`.  Table columns are
`ℚ`-valued; `GHGReduction` and `TruckDelay` are assigned the literal
constant `0`; the other measures aggregate the output tables.
`deflateCurrency` raises `KeyError` when either year is absent from the
deflators table (`FromYear` checked first). -/

structure HouseholdTable where
  hhSize : List ℚ
  dvmt : List ℚ
  walkTrips : List ℚ
  dailyCO2e : List ℚ
  dailyGGE : List ℚ
  aveVehCostPM : List ℚ
  ownCost : List ℚ
  income : List ℚ

structure MareaTable where
  comSvcUrbanGGE : List ℚ
  comSvcNonUrbanGGE : List ℚ

structure Measures where
  ghgReduction : ℚ
  dvmtPerCapita : ℚ
  walkTravelPerCapita : ℚ
  truckDelay : ℚ
  airPollutionEm : ℚ
  fuelUse : ℚ
  vehicleCost : ℚ
  vehicleCostLow : ℚ
deriving DecidableEq

def deflatorLookup (defl : List (String × ℚ)) (year : String) : Option ℚ :=
  match defl with
  | [] => none
  | (y, v) :: rest => if y = year then some v else deflatorLookup rest year

/-- Embedding of the inner `deflateCurrency`. -/
def deflateCurrency (defl : List (String × ℚ)) (values : List ℚ)
    (fromYear toYear : String) : Except String (List ℚ) :=
  match deflatorLookup defl fromYear with
  | none => Except.error ("invalid FromYear " ++ fromYear)
  | some fv =>
    match deflatorLookup defl toYear with
    | none => Except.error ("invalid ToYear " ++ toYear)
    | some tv => Except.ok (values.map (fun v => v * tv / fv))

/-- Sum of the entries of `vals` selected by the Boolean mask. -/
def maskSum (mask : List Bool) (vals : List ℚ) : ℚ :=
  (List.zipWith (fun b v => if b then v else 0) mask vals).sum

/-- Embedding of `post_process`: the measures written to
`ComputedMeasures.json`, or the raised `KeyError` message. -/
def postProcessMeasures (h : HouseholdTable) (m : MareaTable)
    (defl : List (String × ℚ)) : Except String Measures :=
  let population := h.hhSize.sum
  let dvmtPerCapita := h.dvmt.sum / population
  let walkTravelPerCapita := h.walkTrips.sum / population
  let airPollutionEm := h.dailyCO2e.sum
  let fuelUse := (h.dailyGGE.sum + m.comSvcUrbanGGE.sum + m.comSvcNonUrbanGGE.sum) * 365
  let operationCost := List.zipWith (fun a b => a * b) h.aveVehCostPM h.dvmt
  let totalCost := List.zipWith (fun a b => a + b) h.ownCost operationCost
  let vehicleCost := totalCost.sum / h.income.sum * 100
  match deflateCurrency defl h.income "2010" "2005" with
  | Except.error e => Except.error e
  | Except.ok income2005 =>
    let isLowIncome := income2005.map (fun v => decide (v < 20000))
    let vehicleCostLow := maskSum isLowIncome totalCost / maskSum isLowIncome h.income * 100
    Except.ok
      { ghgReduction := 0
        dvmtPerCapita := dvmtPerCapita
        walkTravelPerCapita := walkTravelPerCapita
        truckDelay := 0
        airPollutionEm := airPollutionEm
        fuelUse := fuelUse
        vehicleCost := vehicleCost
        vehicleCostLow := vehicleCostLow }

/-! ## Helper lemmas -/

theorem zipWith_getElem?_eq {α β γ : Type} (f : α → β → γ) (l1 : List α) (l2 : List β)
    (i : Nat) (a : α) (b : β) (h1 : l1[i]? = some a) (h2 : l2[i]? = some b) :
    (List.zipWith f l1 l2)[i]? = some (f a b) := by
  induction l1 generalizing l2 i with
  | nil => simp at h1
  | cons x xs ih =>
    cases l2 with
    | nil => simp at h2
    | cons y ys =>
      cases i with
      | zero =>
        simp_all
      | succ j =>
        simp only [List.zipWith_cons_cons, List.getElem?_cons_succ] at h1 h2 ⊢
        exact ih ys j h1 h2

/-! ## Claim theorems -/

/-- C2: if a filename present in endpoint directory "1" has no
counterpart in endpoint directory "2", the blending operation raises a
`FileNotFoundError` naming the (directory "2") path of a missing file,
and the list of blended files written to the working input directory is
empty — the error precedes every write. -/
theorem claim_c2_missing_file_fails_before_write (base sdir : String)
    (noMix : List String) (w : ℚ) (d1 d2 : ScenarioDir) (nm : String)
    (h1 : nm ∈ fileNames d1) (h2 : nm ∉ fileNames d2) :
    ∃ nm2, nm2 ∈ fileNames d1 ∧ nm2 ∉ fileNames d2 ∧
      manipulateByMixture base sdir noMix w d1 d2 = ([], some (missingPath base sdir nm2)) := by
  have key : ∀ names1 : List String, nm ∈ names1 →
      ∃ nm2, nm2 ∈ names1 ∧ nm2 ∉ fileNames d2 ∧
        checkPairedFiles base sdir names1 (fileNames d2) =
          Except.error (missingPath base sdir nm2) := by
    intro names1
    induction names1 with
    | nil => intro h; simp at h
    | cons n rest ih =>
      intro hmem
      by_cases hc : n ∈ fileNames d2
      · have hne : nm ≠ n := fun he => h2 (he ▸ hc)
        have hmem2 : nm ∈ rest := by
          rcases List.mem_cons.mp hmem with h | h
          · exact absurd h hne
          · exact h
        obtain ⟨nm2, ha, hb, hcheck⟩ := ih hmem2
        refine ⟨nm2, List.mem_cons_of_mem _ ha, hb, ?_⟩
        simp only [checkPairedFiles, if_pos hc, hcheck]
      · refine ⟨n, List.mem_cons_self _ _, hc, ?_⟩
        simp only [checkPairedFiles, if_neg hc]
  obtain ⟨nm2, ha, hb, hcheck⟩ := key (fileNames d1) h1
  refine ⟨nm2, ha, hb, ?_⟩
  simp only [manipulateByMixture, hcheck]

theorem claim_c2_witness :
    ("a.csv" ∈ fileNames ⟨[("a.csv", [])]⟩) ∧
      ("a.csv" ∉ fileNames ⟨([] : List (String × DataFrame))⟩) ∧
      ∃ nm2, nm2 ∈ fileNames ⟨[("a.csv", ([] : DataFrame))]⟩ ∧
        nm2 ∉ fileNames ⟨([] : List (String × DataFrame))⟩ ∧
        manipulateByMixture "base" "F" ["Year", "Geo"] (3 / 10) ⟨[("a.csv", [])]⟩ ⟨[]⟩ =
          ([], some (missingPath "base" "F" nm2)) :=
  ⟨by simp [fileNames], by simp [fileNames],
    claim_c2_missing_file_fails_before_write "base" "F" ["Year", "Geo"] (3 / 10)
      ⟨[("a.csv", [])]⟩ ⟨[]⟩ "a.csv" (by simp [fileNames]) (by simp [fileNames])⟩

/-- C4: a column of endpoint 1 that is excluded (`no_mix_cols`) or not
numeric passes through to the output unchanged, for every weight and
every endpoint-2 frame — endpoint 2 is not consulted for it. -/
theorem mixColumn_passthrough (noMix : List String) (w : ℚ) (df2 : DataFrame) (c : Column)
    (h : c.name ∈ noMix ∨ ∃ vs, c.data = ColData.textData vs) :
    mixColumn noMix w df2 c = c := by
  obtain ⟨nm, data⟩ := c
  by_cases hc : nm ∈ noMix
  · simp [mixColumn, hc]
  · rcases h with h | ⟨vs, h⟩
    · exact absurd h hc
    · simp only at h
      subst h
      simp [mixColumn, hc]

theorem claim_c4_passthrough (noMix : List String) (w : ℚ) (df1 df2 : DataFrame)
    (i : Nat) (c : Column) (h1 : df1[i]? = some c)
    (h : c.name ∈ noMix ∨ ∃ vs, c.data = ColData.textData vs) :
    (mixFrames noMix w df1 df2)[i]? = some c := by
  have hmap : (mixFrames noMix w df1 df2)[i]? = (df1[i]?).map (mixColumn noMix w df2) :=
    List.getElem?_map _ _ _
  rw [hmap, h1]
  simp [mixColumn_passthrough noMix w df2 c h]

theorem claim_c4_witness :
    (([⟨"Year", ColData.intData [2038]⟩] : DataFrame)[0]? = some ⟨"Year", ColData.intData [2038]⟩) ∧
      (mixFrames ["Year", "Geo"] (3 / 10) [⟨"Year", ColData.intData [2038]⟩]
        [⟨"Year", ColData.intData [2045]⟩])[0]? = some ⟨"Year", ColData.intData [2038]⟩ :=
  ⟨rfl, claim_c4_passthrough ["Year", "Geo"] (3 / 10) _ _ 0 _ rfl (Or.inl (by simp))⟩

/-- C7 counterexample: for a categorical value missing from the mapping
the drop-in fails before any copy, but the exception is the `TypeError`
raised by `os.path.join` on the `None` returned by `dict.get` — not a
lookup-miss (`KeyError`) exception as the claim states. -/
theorem claim_c7_counterexample :
    manipulateByCategoricalDropIn [("base", "1"), ("growth", "2")] "urban" (fun _ => ["f.csv"]) =
      ([], some (PyExc.typeError "join() argument must be str, bytes, or os.PathLike object, not NoneType"))
    ∧ isKeyErrorExc (manipulateByCategoricalDropIn [("base", "1"), ("growth", "2")] "urban"
        (fun _ => ["f.csv"])).2 = false :=
  ⟨rfl, rfl⟩

/-- C7 amended: for every categorical value that is not a key of the
mapping, the drop-in fails with a `TypeError` (from joining the `None`
path component), raised before any file is copied. -/
theorem claim_c7_missing_category (mapping : List (String × String)) (catValue : String)
    (dirFiles : String → List String) (h : dictGet mapping catValue = none) :
    manipulateByCategoricalDropIn mapping catValue dirFiles =
      ([], some (PyExc.typeError "join() argument must be str, bytes, or os.PathLike object, not NoneType")) := by
  simp [manipulateByCategoricalDropIn, h]

theorem claim_c7_witness :
    dictGet [("base", "1"), ("growth", "2")] "urban" = none ∧
      manipulateByCategoricalDropIn [("base", "1"), ("growth", "2")] "urban" (fun _ => ["f.csv"]) =
        ([], some (PyExc.typeError "join() argument must be str, bytes, or os.PathLike object, not NoneType")) :=
  ⟨rfl, claim_c7_missing_category _ _ _ rfl⟩

/-- C8: a non-zero subprocess exit code makes `run()` raise a
`CalledProcessError` carrying the exit code, the arguments, and the
captured stdout and stderr verbatim (so the error's stdout equals what
the subprocess wrote); a zero exit code raises nothing. -/
theorem claim_c8_nonzero_exit_raises (res : CompletedProcess) :
    (res.returncode ≠ 0 →
      runCheck res = Except.error ⟨res.returncode, res.args, res.stdout, res.stderr⟩
      ∧ ∀ e, runCheck res = Except.error e → e.stdout = res.stdout)
    ∧ (res.returncode = 0 → runCheck res = Except.ok res) := by
  constructor
  · intro h
    constructor
    · simp [runCheck, h]
    · intro e he
      simp only [runCheck, h, if_true, ne_eq, not_false_eq_true, if_pos] at he
      cases he
      rfl
  · intro h
    simp [runCheck, h]

theorem claim_c8_witness :
    ((1 : Int) ≠ 0 ∧
      runCheck ⟨1, ["Rscript", "verspm_runner.R"], "model crashed".toList, "trace".toList⟩ =
        Except.error ⟨1, ["Rscript", "verspm_runner.R"], "model crashed".toList, "trace".toList⟩)
    ∧ ((0 : Int) = 0 ∧
      runCheck ⟨0, ["Rscript", "verspm_runner.R"], "done".toList, [] ⟩ =
        Except.ok ⟨0, ["Rscript", "verspm_runner.R"], "done".toList, []⟩) :=
  ⟨⟨by decide,
    ((claim_c8_nonzero_exit_raises ⟨1, ["Rscript", "verspm_runner.R"], "model crashed".toList,
      "trace".toList⟩).1 (by decide)).1⟩,
   ⟨rfl,
    (claim_c8_nonzero_exit_raises ⟨0, ["Rscript", "verspm_runner.R"], "done".toList, []⟩).2 rfl⟩⟩

/-- C10: whenever `post_process` completes (both deflator years
resolve), the measures it writes have `GHGReduction = 0` and
`TruckDelay = 0`, whatever the output tables contain — these two
measures are constants, never computed from the model outputs. -/
theorem claim_c10_constant_measures (h : HouseholdTable) (m : MareaTable)
    (defl : List (String × ℚ)) (fv tv : ℚ)
    (h1 : deflatorLookup defl "2010" = some fv)
    (h2 : deflatorLookup defl "2005" = some tv) :
    ∃ r, postProcessMeasures h m defl = Except.ok r ∧
      r.ghgReduction = 0 ∧ r.truckDelay = 0 := by
  simp only [postProcessMeasures, deflateCurrency, h1, h2]
  exact ⟨_, rfl, rfl, rfl⟩

theorem claim_c10_witness :
    deflatorLookup [("2010", 1), ("2005", 1)] "2010" = some 1 ∧
      deflatorLookup [("2010", 1), ("2005", 1)] "2005" = some 1 ∧
      ∃ r, postProcessMeasures ⟨[], [], [], [], [], [], [], []⟩ ⟨[], []⟩
          [("2010", 1), ("2005", 1)] = Except.ok r ∧
        r.ghgReduction = 0 ∧ r.truckDelay = 0 :=
  ⟨rfl, rfl,
    claim_c10_constant_measures ⟨[], [], [], [], [], [], [], []⟩ ⟨[], []⟩
      [("2010", 1), ("2005", 1)] 1 1 rfl rfl⟩

/-! ## Rounding lemmas for the integer blending rule -/

theorem roundHalfEven_nearest (q : ℚ) : |q - (roundHalfEven q : ℚ)| ≤ 1 / 2 := by
  have h0 : ((⌊q⌋ : ℤ) : ℚ) ≤ q := Int.floor_le q
  have h1 : q < (⌊q⌋ : ℚ) + 1 := Int.lt_floor_add_one q
  simp only [roundHalfEven]
  split_ifs with ha hb hc
  · rw [abs_le]; constructor <;> linarith
  · rw [abs_le]; push_neg at ha; push_cast; constructor <;> linarith
  · rw [abs_le]; push_neg at ha hb; constructor <;> linarith
  · rw [abs_le]; push_neg at ha hb; push_cast; constructor <;> linarith

theorem roundHalfEven_tie_even (k : ℤ) (q : ℚ) (h : q = (k : ℚ) + 1 / 2) :
    Even (roundHalfEven q) := by
  subst h
  have hhalf : ⌊(1 : ℚ) / 2⌋ = 0 := by
    rw [Int.floor_eq_zero_iff, Set.mem_Ico]
    norm_num
  have hfl : ⌊(k : ℚ) + 1 / 2⌋ = k := by
    rw [add_comm, Int.floor_add_int, hhalf, zero_add]
  have hr : (k : ℚ) + 1 / 2 - (k : ℚ) = 1 / 2 := by ring
  simp only [roundHalfEven, hfl, hr]
  norm_num
  split_ifs with hc
  · exact hc
  · exact Int.even_add_one.mpr hc

/-- C1: a non-excluded float column of the blended output is the
elementwise combination `endpoint1 * (1 - w) + endpoint2 * w` of the
two endpoint columns; per cell this equals endpoint 1 at `w = 0`,
endpoint 2 at `w = 1`, and the arithmetic mean at `w = 1/2`. -/
theorem claim_c1_float_blend (noMix : List String) (w : ℚ) (df1 df2 : DataFrame)
    (i : Nat) (nm : String) (v1 v2 : List ℚ)
    (h1 : df1[i]? = some ⟨nm, ColData.floatData v1⟩)
    (hno : nm ∉ noMix)
    (h2 : lookupColumn df2 nm = some (ColData.floatData v2)) :
    (mixFrames noMix w df1 df2)[i]? =
      some ⟨nm, ColData.floatData (List.zipWith (fun a b => a * (1 - w) + b * w) v1 v2)⟩
    ∧ ∀ (j : Nat) (a b : ℚ), v1[j]? = some a → v2[j]? = some b →
        ∃ out : ℚ, (List.zipWith (fun a b => a * (1 - w) + b * w) v1 v2)[j]? = some out
          ∧ out = a * (1 - w) + b * w
          ∧ (w = 0 → out = a) ∧ (w = 1 → out = b) ∧ (w = 1 / 2 → out = (a + b) / 2) := by
  constructor
  · have hmap : (mixFrames noMix w df1 df2)[i]? = (df1[i]?).map (mixColumn noMix w df2) :=
      List.getElem?_map _ _ _
    rw [hmap, h1]
    simp [mixColumn, hno, h2]
  · intro j a b hj1 hj2
    refine ⟨a * (1 - w) + b * w, zipWith_getElem?_eq _ v1 v2 j a b hj1 hj2, rfl, ?_, ?_, ?_⟩
    · intro hw; rw [hw]; ring
    · intro hw; rw [hw]; ring
    · intro hw; rw [hw]; ring

theorem claim_c1_witness :
    (([⟨"DRRevMi", ColData.floatData [1, 3]⟩] : DataFrame)[0]? =
        some ⟨"DRRevMi", ColData.floatData [1, 3]⟩)
    ∧ ("DRRevMi" ∉ ["Year", "Geo"])
    ∧ lookupColumn [⟨"DRRevMi", ColData.floatData [2, 5]⟩] "DRRevMi" =
        some (ColData.floatData [2, 5])
    ∧ (mixFrames ["Year", "Geo"] (1 / 2) [⟨"DRRevMi", ColData.floatData [1, 3]⟩]
        [⟨"DRRevMi", ColData.floatData [2, 5]⟩])[0]? =
        some ⟨"DRRevMi", ColData.floatData
          (List.zipWith (fun a b => a * (1 - (1 / 2 : ℚ)) + b * (1 / 2)) [1, 3] [2, 5])⟩ :=
  ⟨rfl, by simp, rfl,
    (claim_c1_float_blend ["Year", "Geo"] (1 / 2) [⟨"DRRevMi", ColData.floatData [1, 3]⟩]
      [⟨"DRRevMi", ColData.floatData [2, 5]⟩] 0 "DRRevMi" [1, 3] [2, 5] rfl (by simp) rfl).1⟩

/-- C3: a non-excluded integer column of the blended output is the
elementwise combination `endpoint1 * (1 - w) + endpoint2 * w`, computed
over the exact (unrounded) intermediate and then rounded to an integer;
the rounding function is round-to-nearest (distance at most 1/2) and
resolves exact .5 ties to the even neighbour (banker's rounding, as
`np.round` does). -/
theorem claim_c3_int_blend (noMix : List String) (w : ℚ) (df1 df2 : DataFrame)
    (i : Nat) (nm : String) (v1 v2 : List ℤ)
    (h1 : df1[i]? = some ⟨nm, ColData.intData v1⟩)
    (hno : nm ∉ noMix)
    (h2 : lookupColumn df2 nm = some (ColData.intData v2)) :
    (mixFrames noMix w df1 df2)[i]? =
      some ⟨nm, ColData.intData (List.zipWith
        (fun (a b : ℤ) => roundHalfEven ((a : ℚ) * (1 - w) + (b : ℚ) * w)) v1 v2)⟩
    ∧ (∀ (j : Nat) (a b : ℤ), v1[j]? = some a → v2[j]? = some b →
        (List.zipWith (fun (a b : ℤ) => roundHalfEven ((a : ℚ) * (1 - w) + (b : ℚ) * w)) v1 v2)[j]? =
          some (roundHalfEven ((a : ℚ) * (1 - w) + (b : ℚ) * w)))
    ∧ (∀ q : ℚ, |q - (roundHalfEven q : ℚ)| ≤ 1 / 2)
    ∧ (∀ (k : ℤ) (q : ℚ), q = (k : ℚ) + 1 / 2 → Even (roundHalfEven q)) := by
  refine ⟨?_, ?_, roundHalfEven_nearest, roundHalfEven_tie_even⟩
  · have hmap : (mixFrames noMix w df1 df2)[i]? = (df1[i]?).map (mixColumn noMix w df2) :=
      List.getElem?_map _ _ _
    rw [hmap, h1]
    simp [mixColumn, hno, h2]
  · intro j a b hj1 hj2
    exact zipWith_getElem?_eq _ v1 v2 j a b hj1 hj2

theorem claim_c3_witness :
    (([⟨"Age0to14", ColData.intData [100]⟩] : DataFrame)[0]? =
        some ⟨"Age0to14", ColData.intData [100]⟩)
    ∧ ("Age0to14" ∉ ["Year", "Geo"])
    ∧ lookupColumn [⟨"Age0to14", ColData.intData [101]⟩] "Age0to14" =
        some (ColData.intData [101])
    ∧ (mixFrames ["Year", "Geo"] (1 / 2) [⟨"Age0to14", ColData.intData [100]⟩]
        [⟨"Age0to14", ColData.intData [101]⟩])[0]? =
        some ⟨"Age0to14", ColData.intData (List.zipWith
          (fun (a b : ℤ) => roundHalfEven ((a : ℚ) * (1 - (1 / 2 : ℚ)) + (b : ℚ) * (1 / 2))) [100] [101])⟩ :=
  ⟨rfl, by simp, rfl,
    (claim_c3_int_blend ["Year", "Geo"] (1 / 2) [⟨"Age0to14", ColData.intData [100]⟩]
      [⟨"Age0to14", ColData.intData [101]⟩] 0 "Age0to14" [100] [101] rfl (by simp) rfl).1⟩

/-! ## Renamer lemmas -/

theorem renamerSubFuel_nil (f : Nat) : renamerSubFuel f [] = [] := by
  cases f <;> rfl

/-- The greedy split search returns position `k` when the tail pattern
matches at `k` and at no later position up to `N`. -/
theorem findSplitWith_found (t : List Char → Option Nat) (s : List Char) (k m N : Nat)
    (hk : t (s.drop k) = some m) (hkN : k ≤ N)
    (hnone : ∀ j, j ≤ N → k < j → t (s.drop j) = none) :
    findSplitWith t s N = some (k, m) := by
  induction N with
  | zero =>
    have hz : k = 0 := Nat.le_zero.mp hkN
    subst hz
    rw [List.drop_zero] at hk
    simp [findSplitWith, hk]
  | succ n ih =>
    by_cases hkn : k = n + 1
    · subst hkn
      simp [findSplitWith, hk]
    · have hk2 : k ≤ n := by omega
      have hnone1 : t (s.drop (n + 1)) = none := hnone (n + 1) (le_refl _) (by omega)
      simp only [findSplitWith, hnone1]
      exact ih hk2 (fun j hj hjk => hnone j (by omega) hjk)

/-- C9 counterexample: the file name `Out_2038-1-1_1.csv` matches the
claimed pattern (arbitrary four-digit year 2038), yet the rename step
leaves it unchanged — the source pattern hard-codes `202[0-9]`, so it
is not renamed to `Out.csv`. -/
theorem claim_c9_counterexample :
    specPatternMatches ("Out_2038-1-1_1.csv".toList) = true
    ∧ renameStep ("Out_2038-1-1_1.csv".toList) = "Out_2038-1-1_1.csv".toList
    ∧ "Out_2038-1-1_1.csv".toList ≠ "Out".toList ++ ('.' :: 'c' :: 's' :: 'v' :: []) :=
  ⟨rfl, rfl, by decide⟩

/-- C9 amended: an output file whose name ends in a timestamp tail
`_<YYYY>-<M>-<D>_<N>.csv` that the source pattern accepts (year between
2020 and 2029) and that is the last such tail in the name (the greedy
`.*` picks the right-most match) is renamed to `<name>.csv`, the
timestamp stripped. -/
theorem claim_c9_rename_strips_timestamp (s : List Char) (k m : Nat)
    (hk : tsTailLen (s.drop k) = some m)
    (hend : k + m = s.length)
    (hlast : ∀ j, j ≤ s.length → k < j → tsTailLen (s.drop j) = none) :
    renameStep s = s.take k ++ ('.' :: 'c' :: 's' :: 'v' :: []) := by
  have hkN : k ≤ s.length := by omega
  have hsplit : findSplitWith tsTailLen s s.length = some (k, m) :=
    findSplitWith_found tsTailLen s k m s.length hk hkN hlast
  have hmatch : renamerMatches s = true := by
    simp [renamerMatches, hsplit]
  have hpos : s ≠ [] := by
    intro he
    subst he
    rw [List.drop_nil] at hk
    simp [tsTailLen] at hk
  obtain ⟨L, hL⟩ : ∃ L, s.length = L + 1 := by
    cases hsl : s.length with
    | zero => exact absurd (List.length_eq_zero.mp hsl) hpos
    | succ n => exact ⟨n, rfl⟩
  rw [renameStep, if_pos hmatch, hL]
  have hdrop : s.drop (k + m) = [] := by
    rw [hend]
    exact List.drop_length s
  simp only [renamerSubFuel]
  simp only [hsplit, hdrop, renamerSubFuel_nil, List.append_nil]

theorem claim_c9_witness :
    tsTailLen (("Marea_2021-3-4_1.csv".toList).drop 5) = some 15
    ∧ 5 + 15 = ("Marea_2021-3-4_1.csv".toList).length
    ∧ (∀ j, j ≤ ("Marea_2021-3-4_1.csv".toList).length → 5 < j →
        tsTailLen (("Marea_2021-3-4_1.csv".toList).drop j) = none)
    ∧ renameStep ("Marea_2021-3-4_1.csv".toList) =
        ("Marea_2021-3-4_1.csv".toList).take 5 ++ ('.' :: 'c' :: 's' :: 'v' :: []) :=
  ⟨rfl, rfl, by decide,
    claim_c9_rename_strips_timestamp ("Marea_2021-3-4_1.csv".toList) 5 15 rfl rfl (by decide)⟩

/-! ## Substitution-engine lemmas -/

theorem subNumFuel_no_match (var op val : List Char) :
    ∀ (fuel : Nat) (s : List Char), hasNumMatch var op s = false →
      subNumFuel var op val fuel s = (s, 0) := by
  intro fuel
  induction fuel with
  | zero => intro s h; rfl
  | succ f ih =>
    intro s h
    cases s with
    | nil => rfl
    | cons c rest =>
      rw [hasNumMatch] at h
      have h1 : (matchNum var op (c :: rest)).isSome = false := by
        cases hx : (matchNum var op (c :: rest)).isSome
        · rfl
        · rw [hx] at h; simp at h
      have h2 : hasNumMatch var op rest = false := by
        cases hx : hasNumMatch var op rest
        · rfl
        · rw [hx] at h; simp at h
      have hm : matchNum var op (c :: rest) = none := by
        cases hmo : matchNum var op (c :: rest)
        · rfl
        · rw [hmo] at h1; simp at h1
      simp only [subNumFuel, hm]
      rw [ih rest h2]

/-- C5: substituting `x → 7` in a text containing the assignment
`x: 1.5` rewrites exactly the numeric literal (`1.5` becomes `7`, one
substitution, everything else identical); and on any text where the
assignment pattern does not match anywhere, `sub` returns the input
unchanged with zero substitutions and raises no error. -/
theorem claim_c5_number_substitution :
    (ReplacementOfNumber.mk "x".toList ":".toList).sub "7".toList
        "PARAM  x: 1.5  # note".toList = ("PARAM  x: 7  # note".toList, 1)
    ∧ ∀ (var op val s : List Char), hasNumMatch var op s = false →
        (ReplacementOfNumber.mk var op).sub val s = (s, 0) := by
  constructor
  · rfl
  · intro var op val s h
    exact subNumFuel_no_match var op val s.length s h

theorem claim_c5_witness :
    hasNumMatch "x".toList ":".toList "no assignment present".toList = false
    ∧ (ReplacementOfNumber.mk "x".toList ":".toList).sub "7".toList
        "no assignment present".toList = ("no assignment present".toList, 0) :=
  ⟨rfl, claim_c5_number_substitution.2 "x".toList ":".toList "7".toList
    "no assignment present".toList rfl⟩

theorem isPrefixOf_append_self (a b : List Char) : a.isPrefixOf (a ++ b) = true := by
  induction a with
  | nil => simp [List.isPrefixOf]
  | cons x xs ih => simp [List.isPrefixOf, ih]

theorem headFails_append_left (p : Char → Bool) (a b : List Char) (h : a ≠ []) :
    headFails p (a ++ b) = headFails p a := by
  cases a with
  | nil => exact absurd rfl h
  | cons x xs => rfl

theorem starLen_append_all (p : Char → Bool) (a b : List Char)
    (ha : a.all p = true) (hb : headFails p b = true) :
    starLen p (a ++ b) = a.length := by
  induction a with
  | nil =>
    cases b with
    | nil => rfl
    | cons c t =>
      have : p c = false := by
        rw [headFails] at hb
        cases hx : p c
        · rfl
        · rw [hx] at hb; simp at hb
      simp [starLen, List.takeWhile_cons_of_neg, this]
  | cons x xs ih =>
    rw [List.all_cons] at ha
    have hx : p x = true := by
      cases hpx : p x
      · rw [hpx] at ha; simp at ha
      · rfl
    have hxs : xs.all p = true := by
      cases hxx : xs.all p
      · rw [hxx] at ha; simp at ha
      · rfl
    simp only [List.cons_append, starLen, List.takeWhile_cons_of_pos hx, List.length_cons]
    have := ih hxs
    simp only [starLen] at this
    rw [this]

theorem drop_append_add (x y : List Char) (k : Nat) :
    (x ++ y).drop (x.length + k) = y.drop k := by
  induction x with
  | nil => simp
  | cons c xs ih =>
    simp only [List.cons_append, List.length_cons]
    have he : xs.length + 1 + k = (xs.length + k) + 1 := by omega
    rw [he, List.drop_succ_cons, ih]

theorem take_append_add (x y : List Char) (k : Nat) :
    (x ++ y).take (x.length + k) = x ++ y.take k := by
  rw [List.take_append]

/-- Results of `subStrFuel` do not depend on the fuel once it is at
least the text length. -/
theorem subStrFuel_fuel_irrel (var op val : List Char) :
    ∀ (f1 : Nat), ∀ (f2 : Nat) (s : List Char), s.length ≤ f1 → s.length ≤ f2 →
      subStrFuel var op val f1 s = subStrFuel var op val f2 s := by
  intro f1
  induction f1 with
  | zero =>
    intro f2 s h1 h2
    have : s = [] := List.length_eq_zero.mp (Nat.le_zero.mp h1)
    subst this
    cases f2 <;> rfl
  | succ f ih =>
    intro f2 s h1 h2
    cases s with
    | nil => cases f2 <;> rfl
    | cons c rest =>
      cases f2 with
      | zero => simp at h2
      | succ g =>
        have hr1 : rest.length ≤ f := by simpa using h1
        have hr2 : rest.length ≤ g := by simpa using h2
        simp only [subStrFuel]
        cases hm : matchStr var op (c :: rest) with
        | none =>
          rw [ih g rest hr1 hr2]
        | some t =>
          obtain ⟨g1, g2, g3⟩ := t
          by_cases hz : g1 + g2 + g3 = 0
          · simp only [if_pos hz]
            rw [ih g rest hr1 hr2]
          · simp only [if_neg hz]
            have hd1 : ((c :: rest).drop (g1 + g2 + g3)).length ≤ f := by
              rw [List.length_drop]
              simp only [List.length_cons]
              omega
            have hd2 : ((c :: rest).drop (g1 + g2 + g3)).length ≤ g := by
              rw [List.length_drop]
              simp only [List.length_cons]
              omega
            rw [ih g ((c :: rest).drop (g1 + g2 + g3)) hd1 hd2]

/-- Scanning runs through a match-free prefix unchanged. -/
theorem subStrFuel_skip (var op val : List Char) :
    ∀ (pre t : List Char) (fuel : Nat),
      (∀ i, i < pre.length → matchStr var op ((pre ++ t).drop i) = none) →
      (pre ++ t).length ≤ fuel →
      subStrFuel var op val fuel (pre ++ t) =
        (pre ++ (subStrFuel var op val (fuel - pre.length) t).1,
         (subStrFuel var op val (fuel - pre.length) t).2) := by
  intro pre
  induction pre with
  | nil =>
    intro t fuel hpre hlen
    simp
  | cons c p ih =>
    intro t fuel hpre hlen
    cases fuel with
    | zero => simp at hlen
    | succ f =>
      have hm : matchStr var op (c :: (p ++ t)) = none := by
        have h0 := hpre 0 (by simp)
        rw [List.drop_zero, List.cons_append] at h0
        exact h0
      rw [List.cons_append]
      simp only [subStrFuel, hm]
      have hpre2 : ∀ i, i < p.length → matchStr var op ((p ++ t).drop i) = none := by
        intro i hi
        have h0 := hpre (i + 1) (by simp only [List.length_cons]; omega)
        rw [List.cons_append, List.drop_succ_cons] at h0
        exact h0
      have hlen2 : (p ++ t).length ≤ f := by
        simp only [List.cons_append, List.length_cons] at hlen
        omega
      rw [ih t f hpre2 hlen2]
      have hfe : f + 1 - (c :: p).length = f - p.length := by
        simp only [List.length_cons]
        omega
      rw [hfe]
      simp

theorem commentLen_hash (t : List Char) :
    commentLen ('#' :: t) = 1 + starLen (fun c => !(c = '\n')) t := rfl

theorem commentLen_nil : commentLen [] = 0 := rfl

theorem commentLen_newline (t : List Char) : commentLen ('\n' :: t) = 0 := rfl


/-- The string-assignment pattern matches an assignment line exactly:
group 1 spans the variable name, surrounding whitespace and the
operator; group 2 is the value portion; group 3 is the trailing
comment (empty when there is none). -/
theorem matchStr_at_assignment (var op ws1 ws2 value comment post : List Char)
    (hws1 : ws1.all isPyWs = true) (hws2 : ws2.all isPyWs = true)
    (hop : op ≠ []) (hoph : headFails isPyWs op = true)
    (hval : value.all (fun c => !(c = '#' || c = '\n')) = true)
    (hvh : headFails isPyWs (value ++ (comment ++ post)) = true)
    (hcm : isCommentShape comment = true)
    (hpost : isLineEnd post = true) :
    matchStr var op (var ++ (ws1 ++ (op ++ (ws2 ++ (value ++ (comment ++ post)))))) =
      some (var.length + ws1.length + op.length + ws2.length,
        value.length, comment.length) := by
  have h1 : var.isPrefixOf
      (var ++ (ws1 ++ (op ++ (ws2 ++ (value ++ (comment ++ post)))))) = true :=
    isPrefixOf_append_self _ _
  have h2 : (var ++ (ws1 ++ (op ++ (ws2 ++ (value ++ (comment ++ post)))))).drop var.length =
      ws1 ++ (op ++ (ws2 ++ (value ++ (comment ++ post)))) := List.drop_left _ _
  have hof : headFails isPyWs (op ++ (ws2 ++ (value ++ (comment ++ post)))) = true := by
    rw [headFails_append_left _ _ _ hop]
    exact hoph
  have h3 : starLen isPyWs (ws1 ++ (op ++ (ws2 ++ (value ++ (comment ++ post))))) =
      ws1.length := starLen_append_all _ _ _ hws1 hof
  have h4 : (ws1 ++ (op ++ (ws2 ++ (value ++ (comment ++ post))))).drop ws1.length =
      op ++ (ws2 ++ (value ++ (comment ++ post))) := List.drop_left _ _
  have h5 : op.isPrefixOf (op ++ (ws2 ++ (value ++ (comment ++ post)))) = true :=
    isPrefixOf_append_self _ _
  have h6 : (op ++ (ws2 ++ (value ++ (comment ++ post)))).drop op.length =
      ws2 ++ (value ++ (comment ++ post)) := List.drop_left _ _
  have h7 : starLen isPyWs (ws2 ++ (value ++ (comment ++ post))) = ws2.length :=
    starLen_append_all _ _ _ hws2 hvh
  have h8 : (ws2 ++ (value ++ (comment ++ post))).drop ws2.length =
      value ++ (comment ++ post) := List.drop_left _ _
  have hbcp : headFails (fun c => !(c = '#' || c = '\n')) (comment ++ post) = true := by
    cases comment with
    | nil =>
      rw [List.nil_append]
      cases post with
      | nil => rfl
      | cons c t =>
        simp only [isLineEnd] at hpost
        have hc : c = '\n' := of_decide_eq_true hpost
        subst hc
        rfl
    | cons ch ct =>
      simp only [isCommentShape, Bool.and_eq_true] at hcm
      have hc : ch = '#' := of_decide_eq_true hcm.1
      subst hc
      rfl
  have h9 : starLen (fun c => !(c = '#' || c = '\n')) (value ++ (comment ++ post)) =
      value.length := starLen_append_all _ _ _ hval hbcp
  cases comment with
  | nil =>
    cases post with
    | nil =>
      have h10 : (value ++ (([] : List Char) ++ ([] : List Char))).drop value.length =
          ([] : List Char) := by
        rw [List.drop_left]
        rfl
      simp only [matchStr, h1, eq_self_iff_true, if_true, h2, h3, h4, h5, h6, h7, h8, h9,
        h10, commentLen_nil]
      rfl
    | cons c t =>
      simp only [isLineEnd] at hpost
      have hc : c = '\n' := of_decide_eq_true hpost
      subst hc
      have h10 : (value ++ (([] : List Char) ++ ('\n' :: t))).drop value.length =
          '\n' :: t := by
        rw [List.drop_left]
        rfl
      simp only [matchStr, h1, eq_self_iff_true, if_true, h2, h3, h4, h5, h6, h7, h8, h9,
        h10, commentLen_newline]
      rfl
  | cons ch ct =>
    simp only [isCommentShape, Bool.and_eq_true] at hcm
    have hc : ch = '#' := of_decide_eq_true hcm.1
    subst hc
    have h11 : starLen (fun c => !(c = '\n')) (ct ++ post) = ct.length := by
      refine starLen_append_all _ _ _ hcm.2 ?_
      cases post with
      | nil => rfl
      | cons c t =>
        simp only [isLineEnd] at hpost
        have hcn : c = '\n' := of_decide_eq_true hpost
        subst hcn
        rfl
    have h10 : (value ++ (('#' :: ct) ++ post)).drop value.length =
        '#' :: (ct ++ post) := by
      rw [List.drop_left]
      rfl
    simp only [matchStr, h1, eq_self_iff_true, if_true, h2, h3, h4, h5, h6, h7, h8, h9,
      h10, commentLen_hash, h11, List.length_cons]
    rw [Nat.add_comm 1 ct.length]

/-- One scan step at a successful (non-zero-width) match: the match
span is replaced by group 1, the new value, two spaces and group 3,
and scanning resumes after the match. -/
theorem subStrFuel_step (var op val s : List Char) (g1 g2 g3 fuel : Nat)
    (hne : s ≠ [])
    (hm : matchStr var op s = some (g1, g2, g3))
    (hz : g1 + g2 + g3 ≠ 0) :
    subStrFuel var op val (fuel + 1) s =
      (s.take g1 ++ val ++ [' ', ' '] ++ (s.drop (g1 + g2)).take g3 ++
        (subStrFuel var op val fuel (s.drop (g1 + g2 + g3))).1,
       (subStrFuel var op val fuel (s.drop (g1 + g2 + g3))).2 + 1) := by
  obtain ⟨c, rest, rfl⟩ := List.exists_cons_of_ne_nil hne
  simp only [subStrFuel, hm, if_neg hz]

/-- C6 (amended): on a line `<pre-text>varname<ws>op<ws>value[#comment]`
followed by the rest of the text, `sub` keeps everything up to and
including the operator and its surrounding whitespace, replaces the
value portion by the new value followed by two literal spaces,
re-appends the trailing comment unchanged, and continues substituting
in the remaining text (so assignments on later lines are also
replaced); the match count grows by one. -/
theorem claim_c6_string_value_replacement
    (var op val pre ws1 ws2 value comment post : List Char)
    (hop : op ≠ []) (hoph : headFails isPyWs op = true)
    (hws1 : ws1.all isPyWs = true) (hws2 : ws2.all isPyWs = true)
    (hval : value.all (fun c => !(c = '#' || c = '\n')) = true)
    (hvh : headFails isPyWs (value ++ (comment ++ post)) = true)
    (hcm : isCommentShape comment = true)
    (hpost : isLineEnd post = true)
    (hpre : ∀ i, i < pre.length →
      matchStr var op ((pre ++ (var ++ (ws1 ++ (op ++ (ws2 ++ (value ++ (comment ++ post))))))).drop i) = none) :
    (ReplacementOfString.mk var op).sub val
        (pre ++ (var ++ (ws1 ++ (op ++ (ws2 ++ (value ++ (comment ++ post))))))) =
      (pre ++ ((var ++ (ws1 ++ (op ++ ws2))) ++ val ++ [' ', ' '] ++ comment ++
        ((ReplacementOfString.mk var op).sub val post).1),
       ((ReplacementOfString.mk var op).sub val post).2 + 1) := by
  set A := var ++ (ws1 ++ (op ++ (ws2 ++ (value ++ (comment ++ post))))) with hAdef
  have hopl : 0 < op.length := List.length_pos.mpr hop
  have hAlen : A.length = var.length + ws1.length + op.length + ws2.length +
      value.length + comment.length + post.length := by
    rw [hAdef]
    simp only [List.length_append]
    omega
  have hAne : A ≠ [] := by
    intro h
    have h0 : A.length = 0 := by rw [h]; rfl
    omega
  obtain ⟨M, hM⟩ : ∃ M, A.length = M + 1 := ⟨A.length - 1, by omega⟩
  have hmA : matchStr var op A =
      some (var.length + ws1.length + op.length + ws2.length, value.length, comment.length) :=
    matchStr_at_assignment var op ws1 ws2 value comment post hws1 hws2 hop hoph hval hvh hcm hpost
  have hzero : var.length + ws1.length + op.length + ws2.length + value.length +
      comment.length ≠ 0 := by omega
  have hd : A.drop (var.length + ws1.length + op.length + ws2.length + value.length +
      comment.length) = post := by
    have e : var.length + ws1.length + op.length + ws2.length + value.length + comment.length =
        var.length + (ws1.length + (op.length + (ws2.length + (value.length + comment.length)))) := by
      omega
    rw [hAdef, e, drop_append_add, drop_append_add, drop_append_add, drop_append_add,
      drop_append_add, List.drop_left]
  have ht1 : A.take (var.length + ws1.length + op.length + ws2.length) =
      var ++ (ws1 ++ (op ++ ws2)) := by
    have e : var.length + ws1.length + op.length + ws2.length =
        var.length + (ws1.length + (op.length + ws2.length)) := by omega
    rw [hAdef, e, take_append_add, take_append_add, take_append_add, List.take_left]
  have ht2 : (A.drop (var.length + ws1.length + op.length + ws2.length + value.length)).take
      comment.length = comment := by
    have e : var.length + ws1.length + op.length + ws2.length + value.length =
        var.length + (ws1.length + (op.length + (ws2.length + value.length))) := by omega
    rw [hAdef, e, drop_append_add, drop_append_add, drop_append_add, drop_append_add,
      List.drop_left, List.take_left]
  have hfi : subStrFuel var op val M post = subStrFuel var op val post.length post :=
    subStrFuel_fuel_irrel var op val M post.length post (by omega) (le_refl _)
  have hlen1 : (pre ++ A).length - pre.length = A.length := by
    simp only [List.length_append]
    omega
  have hskip := subStrFuel_skip var op val pre A (pre ++ A).length hpre (le_refl _)
  rw [hlen1] at hskip
  simp only [ReplacementOfString.sub]
  rw [hskip, hM,
    subStrFuel_step var op val A (var.length + ws1.length + op.length + ws2.length)
      value.length comment.length M hAne hmA hzero,
    hd, ht1, ht2, hfi]

/-- C6 counterexample: on the line `x: old #note`, substituting the
value `new` yields `x: new  #note` — the replacement template inserts
two literal spaces before the re-appended comment, so the output is not
the claimed "value portion replaced with the new value" (`x: new#note`,
or `x: new #note` under the reading that one original space is kept). -/
theorem claim_c6_counterexample :
    (ReplacementOfString.mk "x".toList ":".toList).sub "new".toList "x: old #note".toList
      = ("x: new  #note".toList, 1)
    ∧ "x: new  #note".toList ≠ "x: new#note".toList
    ∧ "x: new  #note".toList ≠ "x: new #note".toList :=
  ⟨rfl, by decide, by decide⟩

theorem claim_c6_witness :
    (∀ i, i < ("# header\n".toList).length →
      matchStr "x".toList ":".toList
        (("# header\n".toList ++ ("x".toList ++ (([] : List Char) ++ (":".toList ++
          (" ".toList ++ ("old".toList ++ ("#keep".toList ++ "\nx: 2".toList))))))).drop i) = none)
    ∧ (ReplacementOfString.mk "x".toList ":".toList).sub "42".toList
        ("# header\n".toList ++ ("x".toList ++ (([] : List Char) ++ (":".toList ++
          (" ".toList ++ ("old".toList ++ ("#keep".toList ++ "\nx: 2".toList))))))) =
      ("# header\n".toList ++ (("x".toList ++ (([] : List Char) ++ (":".toList ++ " ".toList))) ++
        "42".toList ++ [' ', ' '] ++ "#keep".toList ++
        ((ReplacementOfString.mk "x".toList ":".toList).sub "42".toList "\nx: 2".toList).1),
       ((ReplacementOfString.mk "x".toList ":".toList).sub "42".toList "\nx: 2".toList).2 + 1) :=
  ⟨by decide,
   claim_c6_string_value_replacement "x".toList ":".toList "42".toList "# header\n".toList
     ([]) " ".toList "old".toList "#keep".toList "\nx: 2".toList
     (by decide) rfl rfl rfl rfl rfl rfl rfl (by decide)⟩
